import Mathlib

/-!
Verification of the IP classification logic of `net.js`.

The program is a single-endpoint VPN detector.  Its reproducible core is:

* `isVPN` (net.js lines 31-46): lower-case the AS organization name
  (empty string when the attribute is absent) and test whether any
  keyword of a static list occurs in it as a substring;
* `normalizeIp` (net.js lines 49-56): take the part before the first
  comma (trimmed), strip an IPv4-mapped `"::ffff:"` via `split[1]`,
  and map the two loopback literals to `null`;
* the `/scan` handler (net.js lines 59-89): database-ready check,
  query-parameter override, header/socket fallback, lookup with a
  local `try/catch`, and the final verdict.

JavaScript string primitives (`includes`, `split`, `trim`,
`toLowerCase`, `startsWith`) are embedded below as executable Lean
functions on `List Char` with the same semantics.
-/

namespace VpnNet

/-- JS `sep.isPrefixOf`-style check is `List.isPrefixOf`.  JS
`s.includes(sub)`: `sub` occurs contiguously inside `s` (an empty
`sub` always occurs). -/
def occursIn (sub : List Char) : List Char → Bool
  | [] => sub.isEmpty
  | c :: cs => sub.isPrefixOf (c :: cs) || occursIn sub cs

/-- JS `s.includes(sub)` on strings. -/
def jsIncludes (s sub : String) : Bool :=
  occursIn sub.data s.data

/-- JS `s.startsWith(p)`. -/
def jsStartsWith (s p : String) : Bool :=
  p.data.isPrefixOf s.data

/-- JS `String.prototype.split` with a non-empty separator: scan left
to right, break at every non-overlapping occurrence of `sep`.  `fuel`
is an upper bound on the scan length; callers pass `l.length + 1`, so
the `fuel = 0` row is never reached. -/
def splitGo (sep : List Char) : Nat → List Char → List Char → List (List Char)
  | 0, l, acc => [acc.reverse ++ l]
  | _ + 1, [], acc => [acc.reverse]
  | fuel + 1, c :: cs, acc =>
    if sep.isPrefixOf (c :: cs) then
      acc.reverse :: splitGo sep fuel (cs.drop (sep.length - 1)) []
    else
      splitGo sep fuel cs (c :: acc)

/-- JS `s.split(sep)` for a non-empty separator (the only way the
source uses it; `sep.isEmpty` is guarded for totality). -/
def jsSplit (s sep : String) : List String :=
  if sep.data.isEmpty then [s]
  else (splitGo sep.data (s.data.length + 1) s.data []).map (fun l => ⟨l⟩)

/-- JS `s.trim()`: drop whitespace from both ends. -/
def jsTrim (s : String) : String :=
  ⟨((s.data.dropWhile Char.isWhitespace).reverse.dropWhile Char.isWhitespace).reverse⟩

/-- JS `s.toLowerCase()` (character-wise lowering, as the source only
ever compares ASCII organization names and ASCII keywords). -/
def jsToLower (s : String) : String :=
  ⟨s.data.map Char.toLower⟩

/-- The AS record as the code reads it: the single attribute
`autonomous_system_organization`, possibly absent (net.js line 34). -/
structure ASRecord where
  autonomous_system_organization : Option String
deriving DecidableEq

/-- The static keyword list of `isVPN` (net.js lines 36-43). -/
def vpnKeywords : List String :=
  ["vpn", "proxy", "hosting", "datacenter", "cloud",
   "expressvpn", "nordvpn", "surfshark", "cyberghost",
   "private internet access", "ipvanish", "vyprvpn",
   "windscribe", "tunnelbear", "protonvpn", "mullvad",
   "amazon", "aws", "digitalocean", "ovh", "hetzner",
   "google cloud", "microsoft", "azure", "linode"]

/-- `isVPN` from net.js lines 31-46, generalised over the keyword
list (the source's list is the closed-over constant `vpnKeywords`). -/
def isVPNWith (keywords : List String) (asnInfo : Option ASRecord) : Bool :=
  match asnInfo with
  | none => false
  | some info =>
    keywords.any (fun keyword =>
      jsIncludes (jsToLower (info.autonomous_system_organization.getD "")) keyword)

/-- `isVPN` exactly as in the source: the fixed keyword list. -/
def isVPN : Option ASRecord → Bool :=
  isVPNWith vpnKeywords

/-- net.js line 52: `if (ip.includes(",")) ip = ip.split(",")[0].trim()`. -/
def firstHop (ip : String) : String :=
  if jsIncludes ip "," then jsTrim ((jsSplit ip ",").headD "") else ip

/-- net.js line 53: `if (ip.startsWith("::ffff:")) ip = ip.split("::ffff:")[1]`. -/
def stripMapped (ip : String) : String :=
  if jsStartsWith ip "::ffff:" then (jsSplit ip "::ffff:").getD 1 "" else ip

/-- net.js line 54: `if (ip === "::1" || ip === "127.0.0.1") return null`. -/
def loopbackCheck (ip : String) : Option String :=
  if ip = "::1" ∨ ip = "127.0.0.1" then none else some ip

/-- `normalizeIp` from net.js lines 49-56.  The handler always calls
it on a string (`String(...)`), so the JS falsy test `!ipRaw` is the
empty-string test. -/
def normalizeIp (ipRaw : String) : Option String :=
  if ipRaw = "" then none
  else loopbackCheck (stripMapped (firstHop ipRaw))

/-- The four verdicts the `/scan` handler can emit (the emoji display
strings of net.js lines 61, 71, 85, 87). -/
inductive Verdict
  | RealUser
  | VpnUser
  | Localhost
  | DatabaseError
deriving DecidableEq

/-- The request data the handler reads: the `ip` query parameter, the
`x-forwarded-for` header and the socket address (net.js lines 64-66). -/
structure ScanRequest where
  queryIp : Option String
  forwardedFor : Option String
  socketAddr : Option String

/-- The loaded database: a lookup that either yields a record (or no
record) or throws (net.js line 77). -/
abbrev Lookup : Type :=
  String → Except Unit (Option ASRecord)

/-- JS `a || d` for an optional string `a`: `null`, `undefined` and
`""` are falsy. -/
def truthyOr (a : Option String) (d : String) : String :=
  match a with
  | none => d
  | some s => if s = "" then d else s

/-- net.js line 64: `req.query.ip ? String(req.query.ip).trim() : null`. -/
def ipParam (req : ScanRequest) : Option String :=
  match req.queryIp with
  | none => none
  | some s => if s = "" then none else some (jsTrim s)

/-- net.js line 68, inner part: `String(remoteHeader || socketAddr || "")`. -/
def headerIp (req : ScanRequest) : String :=
  truthyOr req.forwardedFor (truthyOr req.socketAddr "")

/-- net.js line 68: `let ipToUse = ipParam || normalizeIp(...)`. -/
def resolveIp (req : ScanRequest) : Option String :=
  match ipParam req with
  | some s => if s = "" then normalizeIp (headerIp req) else some s
  | none => normalizeIp (headerIp req)

/-- net.js lines 74-80: the lookup wrapped in `try/catch`, a thrown
error coerced to `null`. -/
def lookupResult (db : Lookup) (ip : String) : Option ASRecord :=
  match db ip with
  | Except.ok r => r
  | Except.error _ => none

/-- The `/scan` handler, net.js lines 59-89.  `lookup = none` is the
state before `maxmind.open` resolved (or after it failed): the global
`lookup` variable is still `null`, i.e. the database is not ready.
Line 70's `if (!ipToUse)` is a JS falsy test: both `null` and the
empty string answer `Localhost` before any lookup. -/
def scan (lookup : Option Lookup) (req : ScanRequest) : Verdict :=
  match lookup with
  | none => Verdict.DatabaseError
  | some db =>
    match resolveIp req with
    | none => Verdict.Localhost
    | some ip =>
      if ip = "" then Verdict.Localhost
      else if isVPN (lookupResult db ip) then Verdict.VpnUser
      else Verdict.RealUser

/-- The spec-side notion of substring: `sub` occurs contiguously in
`s`. -/
def SubstringOf (sub s : String) : Prop :=
  ∃ p q : String, s = p ++ sub ++ q

/-! ### Facts about the embedded JS string primitives -/

theorem isPrefixOf_spec (l₁ l₂ : List Char) :
    l₁.isPrefixOf l₂ = true ↔ ∃ t, l₂ = l₁ ++ t := by
  rw [ List.isPrefixOf_iff_prefix]
  constructor
  · rintro ⟨t, ht⟩
    exact ⟨t, ht.symm⟩
  · rintro ⟨t, rfl⟩
    exact ⟨t, rfl⟩

theorem occursIn_iff (sub l : List Char) :
    occursIn sub l = true ↔ ∃ p q, l = p ++ sub ++ q := by
  induction l with
  | nil =>
    simp only [occursIn, List.isEmpty_iff]
    constructor
    · rintro rfl
      exact ⟨[], [], rfl⟩
    · rintro ⟨p, q, h⟩
      rcases List.append_eq_nil.mp h.symm with ⟨h1, -⟩
      exact (List.append_eq_nil.mp h1).2
  | cons c cs ih =>
    simp only [occursIn, Bool.or_eq_true, isPrefixOf_spec, ih]
    constructor
    · rintro (⟨t, ht⟩ | ⟨p, q, hq⟩)
      · exact ⟨[], t, by simpa using ht⟩
      · exact ⟨c :: p, q, by simp [hq]⟩
    · rintro ⟨p, q, hp⟩
      cases p with
      | nil =>
        exact Or.inl ⟨q, by simpa using hp⟩
      | cons a p' =>
        simp only [List.cons_append, List.cons.injEq] at hp
        exact Or.inr ⟨p', q, hp.2⟩

theorem jsIncludes_iff (s sub : String) :
    jsIncludes s sub = true ↔ SubstringOf sub s := by
  unfold jsIncludes SubstringOf
  rw [occursIn_iff]
  constructor
  · rintro ⟨p, q, h⟩
    exact ⟨⟨p⟩, ⟨q⟩, String.ext h⟩
  · rintro ⟨p, q, rfl⟩
    exact ⟨p.data, q.data, rfl⟩

theorem splitGo_no_occur (sep : List Char) :
    ∀ fuel l acc, occursIn sep l = false →
      splitGo sep fuel l acc = [acc.reverse ++ l] := by
  intro fuel
  induction fuel with
  | zero =>
    intro l acc _
    rfl
  | succ fuel ih =>
    intro l acc h
    cases l with
    | nil => simp [splitGo]
    | cons c cs =>
      rw [splitGo]
      simp only [occursIn, Bool.or_eq_false_iff] at h
      rw [if_neg (by simp [h.1])]
      rw [ih cs (c :: acc) h.2]
      simp

theorem splitGo_start_match (sep l : List Char) (fuel : Nat) (acc : List Char)
    (hsep : sep ≠ []) :
    splitGo sep (fuel + 1) (sep ++ l) acc = acc.reverse :: splitGo sep fuel l [] := by
  obtain ⟨c, s', rfl⟩ := List.exists_cons_of_ne_nil hsep
  have hp : (c :: s').isPrefixOf (c :: (s' ++ l)) = true :=
    (isPrefixOf_spec _ _).mpr ⟨l, by simp⟩
  simp only [List.cons_append]
  rw [splitGo, if_pos hp]
  simp [List.length_cons, Nat.succ_sub_one, List.drop_left]

theorem splitGo_headD (c : Char) :
    ∀ fuel l acc, l.length < fuel →
      (splitGo [c] fuel l acc).headD [] =
        acc.reverse ++ l.takeWhile (fun a => a != c) := by
  intro fuel
  induction fuel with
  | zero =>
    intro l acc h
    exact absurd h (Nat.not_lt_zero _)
  | succ fuel ih =>
    intro l acc h
    cases l with
    | nil => simp [splitGo]
    | cons a cs =>
      rw [splitGo]
      by_cases hca : c = a
      · subst hca
        have hp : [c].isPrefixOf (c :: cs) = true :=
          (isPrefixOf_spec _ _).mpr ⟨cs, rfl⟩
        rw [if_pos hp]
        simp [List.takeWhile_cons]
      · have hac : a ≠ c := fun hh => hca hh.symm
        have hp : ¬ ([c].isPrefixOf (a :: cs) = true) := by
          rw [isPrefixOf_spec]
          rintro ⟨t, ht⟩
          simp only [List.singleton_append, List.cons.injEq] at ht
          exact hca ht.1.symm
        rw [if_neg hp]
        rw [ih cs (a :: acc) (Nat.lt_of_succ_lt_succ h)]
        simp [List.takeWhile_cons, bne_iff_ne, hac]

theorem headD_map_mk (L : List (List Char)) :
    ((L.map (fun l => (⟨l⟩ : String))).headD "") = ⟨L.headD []⟩ := by
  cases L <;> rfl

theorem getD_one_map_mk (L : List (List Char)) :
    ((L.map (fun l => (⟨l⟩ : String))).getD 1 "") = ⟨L.getD 1 []⟩ := by
  cases L with
  | nil => rfl
  | cons a t => cases t <;> rfl

theorem normalizeIp_of_ne (ipRaw : String) (h : ipRaw ≠ "") :
    normalizeIp ipRaw = loopbackCheck (stripMapped (firstHop ipRaw)) := by
  rw [normalizeIp, if_neg h]

/-- The keyword test of `isVPN` on a present record, phrased with the
spec-side substring predicate. -/
theorem isVPN_some_iff (info : ASRecord) :
    isVPN (some info) = true ↔
      ∃ k ∈ vpnKeywords,
        SubstringOf k (jsToLower (info.autonomous_system_organization.getD "")) := by
  simp only [isVPN, isVPNWith, List.any_eq_true]
  constructor
  · rintro ⟨k, hk, h⟩
    exact ⟨k, hk, (jsIncludes_iff _ _).mp h⟩
  · rintro ⟨k, hk, h⟩
    exact ⟨k, hk, (jsIncludes_iff _ _).mpr h⟩

theorem scan_some_of_resolve (db : Lookup) (req : ScanRequest) (ip : String)
    (h : resolveIp req = some ip) (hne : ip ≠ "") :
    scan (some db) req =
      (if isVPN (lookupResult db ip) then Verdict.VpnUser else Verdict.RealUser) := by
  simp [scan, h, hne]

/-! ### The claims -/

/-- C1: with the database loaded, for every request that resolves to a
non-empty IP (only those reach the lookup; line 70's falsy test already
intercepted the rest) whose lookup yields an AS record, the handler's
verdict is `VpnUser` exactly when the lower-cased organization name (empty
string when the attribute is absent) contains some keyword of the static
keyword set as a substring, and it is `RealUser` in every other case. -/
theorem C1_keyword_decides_verdict (db : Lookup) (req : ScanRequest) (ip : String)
    (rec : ASRecord) (hip : resolveIp req = some ip) (hne : ip ≠ "")
    (hrec : lookupResult db ip = some rec) :
    (scan (some db) req = Verdict.VpnUser ↔
      ∃ k ∈ vpnKeywords,
        SubstringOf k (jsToLower (rec.autonomous_system_organization.getD ""))) ∧
    (scan (some db) req = Verdict.RealUser ↔
      ¬ ∃ k ∈ vpnKeywords,
        SubstringOf k (jsToLower (rec.autonomous_system_organization.getD ""))) := by
  rw [scan_some_of_resolve db req ip hip hne, hrec]
  by_cases hb : isVPN (some rec) = true
  · rw [if_pos hb]
    exact ⟨⟨fun _ => (isVPN_some_iff rec).mp hb, fun _ => rfl⟩,
           ⟨fun h => absurd h (by decide),
            fun hneg => absurd ((isVPN_some_iff rec).mp hb) hneg⟩⟩
  · rw [if_neg hb]
    have hneg : ¬ ∃ k ∈ vpnKeywords,
        SubstringOf k (jsToLower (rec.autonomous_system_organization.getD "")) :=
      fun he => hb ((isVPN_some_iff rec).mpr he)
    exact ⟨⟨fun h => absurd h (by decide), fun he => absurd he hneg⟩,
           ⟨fun _ => hneg, fun _ => rfl⟩⟩

/-- Witness for C1 at a concrete request, organization `"ExpressVPN Ltd"`. -/
theorem C1_witness :
    (scan (some fun _ => Except.ok (some ⟨some "ExpressVPN Ltd"⟩))
        ⟨some "1.2.3.4", none, none⟩ = Verdict.VpnUser ↔
      ∃ k ∈ vpnKeywords,
        SubstringOf k (jsToLower
          ((ASRecord.mk (some "ExpressVPN Ltd")).autonomous_system_organization.getD ""))) ∧
    (scan (some fun _ => Except.ok (some ⟨some "ExpressVPN Ltd"⟩))
        ⟨some "1.2.3.4", none, none⟩ = Verdict.RealUser ↔
      ¬ ∃ k ∈ vpnKeywords,
        SubstringOf k (jsToLower
          ((ASRecord.mk (some "ExpressVPN Ltd")).autonomous_system_organization.getD ""))) :=
  C1_keyword_decides_verdict _ _ "1.2.3.4" ⟨some "ExpressVPN Ltd"⟩ (by decide)
    (by decide) rfl

/-- C2: when the AS database failed to load (the global `lookup` is still
`null`), every `/scan` request gets the `DatabaseError` verdict, whatever its
query parameter, forwarded-for header or socket address. -/
theorem C2_database_error (req : ScanRequest) :
    scan none req = Verdict.DatabaseError := rfl

/-- C3: with the database loaded and a request resolving to a non-empty IP
(an empty one is falsy at line 70 and never reaches the lookup), an absent
AS record and a present record with empty organization string yield the same
verdict, `RealUser`. -/
theorem C3_absent_and_empty_real (req : ScanRequest) (ip : String)
    (hip : resolveIp req = some ip) (hne : ip ≠ "")
    (dbAbsent dbEmpty : Lookup)
    (habs : lookupResult dbAbsent ip = none)
    (hemp : lookupResult dbEmpty ip = some ⟨some ""⟩) :
    scan (some dbAbsent) req = Verdict.RealUser ∧
    scan (some dbEmpty) req = Verdict.RealUser ∧
    scan (some dbAbsent) req = scan (some dbEmpty) req := by
  have h1 : scan (some dbAbsent) req = Verdict.RealUser := by
    rw [scan_some_of_resolve _ _ _ hip hne, habs]
    decide
  have h2 : scan (some dbEmpty) req = Verdict.RealUser := by
    rw [scan_some_of_resolve _ _ _ hip hne, hemp]
    decide
  exact ⟨h1, h2, h1.trans h2.symm⟩

/-- Witness for C3 at IP `"8.8.8.8"`. -/
theorem C3_witness :
    scan (some fun _ => Except.ok none) ⟨some "8.8.8.8", none, none⟩ =
      Verdict.RealUser ∧
    scan (some fun _ => Except.ok (some ⟨some ""⟩)) ⟨some "8.8.8.8", none, none⟩ =
      Verdict.RealUser ∧
    scan (some fun _ => Except.ok none) ⟨some "8.8.8.8", none, none⟩ =
      scan (some fun _ => Except.ok (some ⟨some ""⟩)) ⟨some "8.8.8.8", none, none⟩ :=
  C3_absent_and_empty_real _ "8.8.8.8" (by decide) (by decide) _ _ rfl rfl

/-- C4: with the database loaded, when the lookup throws on the resolved
(non-empty) IP, the error is swallowed: the verdict is `RealUser`, identical
to the verdict of a database in which the IP is simply absent. -/
theorem C4_lookup_error_real (req : ScanRequest) (ip : String)
    (hip : resolveIp req = some ip) (hne : ip ≠ "")
    (dbThrow dbAbsent : Lookup)
    (hthrow : dbThrow ip = Except.error ())
    (habsent : dbAbsent ip = Except.ok none) :
    scan (some dbThrow) req = Verdict.RealUser ∧
    scan (some dbThrow) req = scan (some dbAbsent) req := by
  have h1 : lookupResult dbThrow ip = none := by
    simp [lookupResult, hthrow]
  have h2 : lookupResult dbAbsent ip = none := by
    simp [lookupResult, habsent]
  have e1 : scan (some dbThrow) req = Verdict.RealUser := by
    rw [scan_some_of_resolve _ _ _ hip hne, h1]
    decide
  have e2 : scan (some dbAbsent) req = Verdict.RealUser := by
    rw [scan_some_of_resolve _ _ _ hip hne, h2]
    decide
  exact ⟨e1, e1.trans e2.symm⟩

/-- Witness for C4 at the malformed IP string `"not-an-ip"`. -/
theorem C4_witness :
    scan (some fun _ => Except.error ()) ⟨some "not-an-ip", none, none⟩ =
      Verdict.RealUser ∧
    scan (some fun _ => Except.error ()) ⟨some "not-an-ip", none, none⟩ =
      scan (some fun _ => Except.ok none) ⟨some "not-an-ip", none, none⟩ :=
  C4_lookup_error_real _ "not-an-ip" (by decide) (by decide) _ _ rfl rfl

/-- C5: whenever the comma-split and prefix-strip steps leave one of the two
loopback literals, `normalizeIp` yields the no-IP marker, and a request with
no explicit query IP whose forwarded-for header carries that raw value gets
the `Localhost` verdict. -/
theorem C5_loopback_localhost (raw : String)
    (hloop : stripMapped (firstHop raw) = "127.0.0.1" ∨
      stripMapped (firstHop raw) = "::1")
    (db : Lookup) (sock : Option String) :
    normalizeIp raw = none ∧
    scan (some db) ⟨none, some raw, sock⟩ = Verdict.Localhost := by
  have hne : raw ≠ "" := by
    rintro rfl
    rcases hloop with h | h <;> exact absurd h (by decide)
  have hnorm : normalizeIp raw = none := by
    rw [normalizeIp_of_ne raw hne]
    rcases hloop with h | h <;> rw [h] <;> rfl
  have hhead : headerIp ⟨none, some raw, sock⟩ = raw := by
    simp [headerIp, truthyOr, hne]
  have hres : resolveIp ⟨none, some raw, sock⟩ = none := by
    simp [resolveIp, ipParam, hhead, hnorm]
  exact ⟨hnorm, by simp [scan, hres]⟩

/-- Witness for C5 at the raw header value `"127.0.0.1"`. -/
theorem C5_witness :
    normalizeIp "127.0.0.1" = none ∧
    scan (some fun _ => Except.ok none) ⟨none, some "127.0.0.1", none⟩ =
      Verdict.Localhost :=
  C5_loopback_localhost "127.0.0.1" (Or.inl (by decide)) _ none

/-- C6 as stated is false.  `normalizeIp` does not return the remainder of
every `"::ffff:"`-mapped string: the loopback check still runs afterwards
(so `"::ffff:127.0.0.1"` yields the no-IP marker, not `"127.0.0.1"`), and
`split("::ffff:")[1]` is the piece between the first and second occurrence
of the marker, not the whole remainder. -/
theorem C6_counterexample :
    normalizeIp "::ffff:127.0.0.1" = none ∧
    normalizeIp "::ffff:127.0.0.1" ≠ some "127.0.0.1" ∧
    normalizeIp "::ffff:::ffff:8.8.8.8" = some "" ∧
    normalizeIp "::ffff:::ffff:8.8.8.8" ≠ some "::ffff:8.8.8.8" :=
  ⟨by decide, by decide, by decide, by decide⟩

/-- C6 amended: for an input `"::ffff:" ++ rest` with no comma and no
further occurrence of `"::ffff:"` inside `rest`, `normalizeIp` strips the
prefix and returns `rest` — unless `rest` is a loopback literal, in which
case it returns the no-IP marker. -/
theorem C6_mapped_strip (rest : String)
    (hc : jsIncludes ("::ffff:" ++ rest) "," = false)
    (hm : jsIncludes rest "::ffff:" = false) :
    normalizeIp ("::ffff:" ++ rest) =
      (if rest = "::1" ∨ rest = "127.0.0.1" then none else some rest) := by
  have hne : ("::ffff:" ++ rest) ≠ "" := by
    intro h
    have hd : "::ffff:".data ++ rest.data = ([] : List Char) :=
      congrArg String.data h
    simp only [List.append_eq_nil] at hd
    exact absurd hd.1 (by decide)
  have hfh : firstHop ("::ffff:" ++ rest) = "::ffff:" ++ rest := by
    simp only [firstHop, hc]
    rfl
  have hsw : jsStartsWith ("::ffff:" ++ rest) "::ffff:" = true := by
    unfold jsStartsWith
    exact (isPrefixOf_spec _ _).mpr ⟨rest.data, rfl⟩
  have hm' : occursIn "::ffff:".data rest.data = false := hm
  have hsplit : jsSplit ("::ffff:" ++ rest) "::ffff:" = ["", rest] := by
    have h1 : jsSplit ("::ffff:" ++ rest) "::ffff:" =
        (splitGo "::ffff:".data (("::ffff:".data ++ rest.data).length + 1)
          ("::ffff:".data ++ rest.data) []).map (fun l => (⟨l⟩ : String)) := by
      simp only [jsSplit]
      rw [if_neg (by decide)]
      rfl
    rw [h1, splitGo_start_match _ _ _ _ (by decide),
        splitGo_no_occur _ _ _ _ hm']
    simp
  have hsm : stripMapped ("::ffff:" ++ rest) = rest := by
    simp only [stripMapped, hsw, if_true]
    rw [hsplit]
    rfl
  rw [normalizeIp_of_ne _ hne, hfh, hsm]
  rfl

/-- Witness for the amended C6 at the claim's own example input. -/
theorem C6_witness :
    normalizeIp ("::ffff:" ++ "8.8.8.8") =
      (if ("8.8.8.8" : String) = "::1" ∨ ("8.8.8.8" : String) = "127.0.0.1"
       then none else some "8.8.8.8") :=
  C6_mapped_strip "8.8.8.8" (by decide) (by decide)

/-- C7: on an input containing a comma, `normalizeIp` keeps exactly the part
before the first comma (characterised by `takeWhile`), trims it, and then
applies the prefix-strip and loopback steps to that value. -/
theorem C7_comma_takes_first (raw : String) (h : jsIncludes raw "," = true) :
    normalizeIp raw =
      loopbackCheck (stripMapped
        (jsTrim ⟨raw.data.takeWhile (fun a => a != ',')⟩)) := by
  have hne : raw ≠ "" := by
    rintro rfl
    exact absurd h (by decide)
  rw [normalizeIp_of_ne _ hne]
  have h1 : jsSplit raw "," =
      (splitGo [','] (raw.data.length + 1) raw.data []).map
        (fun l => (⟨l⟩ : String)) := by
    simp only [jsSplit]
    rw [if_neg (by decide)]
  have hfh : firstHop raw = jsTrim ⟨raw.data.takeWhile (fun a => a != ',')⟩ := by
    simp only [firstHop, h, if_true]
    rw [h1, headD_map_mk,
        splitGo_headD ',' _ _ [] (Nat.lt_succ_self _)]
    simp
  rw [hfh]

/-- Witness for C7 at a two-hop forwarded-for list. -/
theorem C7_witness :
    normalizeIp " 10.0.0.1 , 5.6.7.8" =
      loopbackCheck (stripMapped
        (jsTrim ⟨(" 10.0.0.1 , 5.6.7.8" : String).data.takeWhile
          (fun a => a != ',')⟩)) :=
  C7_comma_takes_first " 10.0.0.1 , 5.6.7.8" (by decide)

/-- C8: the classifier's verdict is invariant under any permutation of the
keyword list — only boolean membership of a match counts. -/
theorem C8_keyword_order_irrelevant (l : List String) (h : l.Perm vpnKeywords)
    (asnInfo : Option ASRecord) :
    isVPNWith l asnInfo = isVPN asnInfo := by
  cases asnInfo with
  | none => rfl
  | some info =>
    simp only [isVPN, isVPNWith]
    rw [Bool.eq_iff_iff]
    simp only [List.any_eq_true]
    constructor
    · rintro ⟨k, hk, hv⟩
      exact ⟨k, h.mem_iff.mp hk, hv⟩
    · rintro ⟨k, hk, hv⟩
      exact ⟨k, h.mem_iff.mpr hk, hv⟩

/-- Witness for C8: the reversed keyword list classifies `"NordVPN"` the
same way as the source's list. -/
theorem C8_witness :
    isVPNWith vpnKeywords.reverse (some ⟨some "NordVPN"⟩) =
      isVPN (some ⟨some "NordVPN"⟩) :=
  C8_keyword_order_irrelevant _ (List.reverse_perm _) _

/-- C9: classification is deterministic — for a fixed database state, two
requests resolving to the same normalized IP get the same verdict; there is
no per-request mutable state. -/
theorem C9_deterministic (lookup : Option Lookup) (req1 req2 : ScanRequest)
    (h : resolveIp req1 = resolveIp req2) :
    scan lookup req1 = scan lookup req2 := by
  cases lookup with
  | none => rfl
  | some db => simp only [scan, h]

/-- Witness for C9: two different requests resolving to `"8.8.4.4"`. -/
theorem C9_witness :
    scan (some fun _ => Except.ok none) ⟨some "8.8.4.4", none, none⟩ =
      scan (some fun _ => Except.ok none)
        ⟨some " 8.8.4.4 ", some "1.1.1.1", none⟩ :=
  C9_deterministic _ _ _ (by decide)

/-- C10: with the database loaded and a non-empty (after trimming) explicit
`ip` query parameter, the handler never answers `Localhost`: the trimmed
query value bypasses `normalizeIp` — including its loopback check — and goes
to the lookup verbatim, yielding `VpnUser` or `RealUser`. -/
theorem C10_query_skips_loopback (db : Lookup) (req : ScanRequest) (s : String)
    (hq : req.queryIp = some s) (hs : s ≠ "") (ht : jsTrim s ≠ "") :
    scan (some db) req ≠ Verdict.Localhost ∧
    scan (some db) req =
      (if isVPN (lookupResult db (jsTrim s)) then Verdict.VpnUser
       else Verdict.RealUser) := by
  have hres : resolveIp req = some (jsTrim s) := by
    simp [resolveIp, ipParam, hq, hs, ht]
  have h2 := scan_some_of_resolve db req (jsTrim s) hres ht
  refine ⟨?_, h2⟩
  rw [h2]
  by_cases hb : isVPN (lookupResult db (jsTrim s)) = true
  · rw [if_pos hb]
    decide
  · rw [if_neg hb]
    decide

/-- Witness for C10: querying the loopback literal itself is classified
`RealUser`/`VpnUser`, never `Localhost`. -/
theorem C10_witness :
    ("127.0.0.1" : String) ≠ "" ∧ jsTrim "127.0.0.1" ≠ "" ∧
    (scan (some fun _ => Except.ok none) ⟨some "127.0.0.1", none, none⟩ ≠
        Verdict.Localhost ∧
      scan (some fun _ => Except.ok none) ⟨some "127.0.0.1", none, none⟩ =
        (if isVPN (lookupResult (fun _ => Except.ok none) (jsTrim "127.0.0.1"))
         then Verdict.VpnUser else Verdict.RealUser)) :=
  ⟨by decide, by decide,
    C10_query_skips_loopback _ _ "127.0.0.1" rfl (by decide) (by decide)⟩

end VpnNet
